import Mathlib

/-!
Verification development for the `nuriemon` python sidecar
(`src/python-sidecar/main.py`): a persistent worker that removes the
background from a drawing, trims transparent borders, and speaks a
line-oriented JSON protocol over stdin/stdout.

The image-processing primitives (PIL conversions, numpy slicing, cv2
threshold/dilate/grayscale, PIL thumbnail size computation) are embedded
with their standard documented semantics; rasters are modelled as a mode
tag plus a list of rows, each row a list of pixels, each pixel a list of
channel values (natural numbers, 0..255 in well-formed images).
-/

/-- PIL image modes that occur in the pipeline. -/
inductive Mode
  | L
  | RGB
  | RGBA
deriving DecidableEq, Repr

/-- Channel count of a mode, i.e. `np.array(image).shape[-1]` (with the
2-d case for `L` counted as 1 channel). -/
def Mode.channels : Mode → Nat
  | .L => 1
  | .RGB => 3
  | .RGBA => 4

/-- A raster: a mode and rows of pixels; each pixel is its list of channel
values. -/
structure Img where
  mode : Mode
  data : List (List (List Nat))
deriving DecidableEq, Repr

/-- Height of a raster (number of rows). -/
def Img.height (img : Img) : Nat := img.data.length

/-- Width of a raster (length of its first row; 0 for an empty raster). -/
def Img.width (img : Img) : Nat := (img.data[0]?.getD []).length

/-- Pixel access with defaults out of range, mirroring bounded numpy
indexing (all real accesses in the code are in bounds). -/
def pxAt (d : List (List (List Nat))) (y x : Nat) : List Nat :=
  ((d[y]?.getD [])[x]?.getD [])

/-- Alpha channel of the pixel at `(y, x)` (channel index 3). -/
def Img.alphaAt (img : Img) (y x : Nat) : Nat :=
  (pxAt img.data y x).getD 3 0

/-- Well-formedness: rows all have the width of the raster and pixels all
have the channel count of the mode. -/
def Img.WF (img : Img) : Prop :=
  (∀ row ∈ img.data, row.length = img.width) ∧
  (∀ row ∈ img.data, ∀ p ∈ row, p.length = img.mode.channels)

/-- PIL `convert('RGBA')` on a single pixel: `L` replicates the luminance
into r, g, b; a missing alpha channel is filled with 255. -/
def convPixToRGBA (m : Mode) (p : List Nat) : List Nat :=
  match m with
  | .L => [p.getD 0 0, p.getD 0 0, p.getD 0 0, 255]
  | .RGB => [p.getD 0 0, p.getD 1 0, p.getD 2 0, 255]
  | .RGBA => p

/-- PIL `image.convert('RGBA')`. -/
def convertRGBA (img : Img) : Img :=
  ⟨.RGBA, img.data.map (fun row => row.map (convPixToRGBA img.mode))⟩

/-- First step of `trim_transparent_borders`:
`if image.mode != 'RGBA': image = image.convert('RGBA')`. -/
def normalizeRGBA (img : Img) : Img :=
  if img.mode = .RGBA then img else convertRGBA img

/-- PIL `image.crop((left, top, right, lower))` for a box inside the
canvas: the rows `top ≤ y < lower` and columns `left ≤ x < right`. -/
def cropImg (img : Img) (left top right lower : Nat) : Img :=
  ⟨img.mode,
    (List.range (lower - top)).map (fun dy =>
      (List.range (right - left)).map (fun dx =>
        pxAt img.data (top + dy) (left + dx)))⟩

/-- Rows containing a pixel whose alpha exceeds the threshold 8
(`ys = np.where(alpha > 8)` projected to row indices). -/
def maskRows (img : Img) : Finset Nat :=
  (Finset.range img.height).filter
    (fun y => ∃ x, x < img.width ∧ 8 < img.alphaAt y x)

/-- Columns containing a pixel whose alpha exceeds the threshold 8
(`xs = np.where(alpha > 8)` projected to column indices). -/
def maskCols (img : Img) : Finset Nat :=
  (Finset.range img.width).filter
    (fun x => ∃ y, y < img.height ∧ 8 < img.alphaAt y x)

/-- Body of `trim_transparent_borders` after RGBA normalization: early
return when the array has fewer than 4 channels, early return when no
pixel passes the alpha threshold, bounding box padded by 4 and clamped,
early return on a full-canvas box, otherwise crop. -/
def trimCore (I : Img) : Img :=
  if I.mode.channels < 4 then I
  else if h : (maskRows I).Nonempty ∧ (maskCols I).Nonempty then
    if (maskRows I).min' h.1 - 4 = 0 ∧ (maskCols I).min' h.2 - 4 = 0 ∧
       min ((maskRows I).max' h.1 + 4) (I.height - 1) = I.height - 1 ∧
       min ((maskCols I).max' h.2 + 4) (I.width - 1) = I.width - 1 then I
    else cropImg I ((maskCols I).min' h.2 - 4) ((maskRows I).min' h.1 - 4)
      (min ((maskCols I).max' h.2 + 4) (I.width - 1) + 1)
      (min ((maskRows I).max' h.1 + 4) (I.height - 1) + 1)
  else I

/-- Function `trim_transparent_borders(image, padding=4, alpha_threshold=8)` at its
default parameters, as called by the pipeline. -/
def trim_transparent_borders (img : Img) : Img :=
  trimCore (normalizeRGBA img)

/-! ## Mask Synthesizer (`create_custom_mask`) -/

/-- PIL `convert('RGB')` on a single pixel: `L` replicates luminance,
`RGBA` drops the alpha channel. -/
def convPixToRGB (m : Mode) (p : List Nat) : List Nat :=
  match m with
  | .L => [p.getD 0 0, p.getD 0 0, p.getD 0 0]
  | .RGB => p
  | .RGBA => [p.getD 0 0, p.getD 1 0, p.getD 2 0]

/-- Operation `cv2.cvtColor(..., cv2.COLOR_RGB2GRAY)` on one RGB pixel: the
fixed-point luminance `(R*4899 + G*9617 + B*1868 + 8192) >> 14`
(coefficients 0.299 / 0.587 / 0.114 scaled by 2^14). -/
def grayValue (p : List Nat) : Nat :=
  (4899 * p.getD 0 0 + 9617 * p.getD 1 0 + 1868 * p.getD 2 0 + 8192) / 16384

/-- Luminance of the pixel at `(y, x)` after the `convert('RGB')` step of
`create_custom_mask`. -/
def grayAt (img : Img) (y x : Nat) : Nat :=
  grayValue (convPixToRGB img.mode (pxAt img.data y x))

/-- Operation `cv2.threshold(gray, 200, 255, cv2.THRESH_BINARY_INV)` at one pixel:
0 where the luminance exceeds 200, otherwise 255. -/
def threshAt (img : Img) (y x : Nat) : Nat :=
  if 200 < grayAt img y x then 0 else 255

/-- Thresholded value guarded by the canvas bounds; out-of-canvas
positions contribute the neutral value 0 to dilation (cv2 treats the
border as minus infinity for `dilate`). -/
def threshAtSafe (img : Img) (y x : Nat) : Nat :=
  if y < img.height ∧ x < img.width then threshAt img y x else 0

/-- Operation `cv2.dilate(thresh, np.ones((3,3)), iterations=1)` at one pixel:
maximum of the thresholded values over the 3×3 neighbourhood (indices
clamped at 0 only duplicate in-neighbourhood values, which is neutral
under `max`). -/
def dilateAt (img : Img) (y x : Nat) : Nat :=
  max (max (max (threshAtSafe img (y-1) (x-1))
                (max (threshAtSafe img (y-1) x) (threshAtSafe img (y-1) (x+1))))
           (max (threshAtSafe img y (x-1))
                (max (threshAtSafe img y x) (threshAtSafe img y (x+1)))))
      (max (threshAtSafe img (y+1) (x-1))
           (max (threshAtSafe img (y+1) x) (threshAtSafe img (y+1) (x+1))))

/-- Function `create_custom_mask`: grayscale, inverted binary threshold at cutoff
200, one 3×3 dilation; `Image.fromarray` of a 2-d array yields mode L. -/
def create_custom_mask (img : Img) : Img :=
  ⟨.L, (List.range img.height).map (fun y =>
        (List.range img.width).map (fun x => [dilateAt img y x]))⟩

/-! ## Size Normalizer (`thumbnail((1024,1024), LANCZOS)` guard) -/

/-- New width chosen by PIL `thumbnail` when `w ≤ h`: the integer nearest
to `1024*w/h` under the key `|w/h - n/1024|` (ties to the floor), then at
least 1. Exact rational arithmetic stands in for PIL's float arithmetic. -/
def roundAspectW (w h : Nat) : Nat :=
  max (if 2 * (1024 * w % h) ≤ h then 1024 * w / h else 1024 * w / h + 1) 1

/-- New height chosen by PIL `thumbnail` when `w > h`: floor or ceiling of
`1024*h/w` minimizing the key `|w/h - 1024/n|` (with `n = 0` keyed to 0,
ties to the floor), then at least 1. For `f ≥ 1` the comparison
`key f ≤ key c` is equivalent to `1024*h*(c+f) ≤ 2*w*c*f`. -/
def roundAspectH (w h : Nat) : Nat :=
  max (if 1024 * h / w = 0 then 0
       else if 1024 * h % w = 0 then 1024 * h / w
       else if 1024 * h * ((1024 * h / w + 1) + 1024 * h / w) ≤
              2 * w * (1024 * h / w + 1) * (1024 * h / w) then 1024 * h / w
       else 1024 * h / w + 1) 1

/-- Dimension computation of PIL `Image.thumbnail((1024, 1024), ...)`:
no-op when the image already fits, otherwise scale the longer side to
1024 and round the shorter one preserving aspect. -/
def thumbnailSize (w h : Nat) : Nat × Nat :=
  if w ≤ 1024 ∧ h ≤ 1024 then (w, h)
  else if w ≤ h then (roundAspectW w h, 1024)
  else (1024, roundAspectH w h)

/-- The Size Normalizer on dimensions:
`if max(input_image.size) > 1024: input_image.thumbnail((1024,1024), LANCZOS)`. -/
def sizeNormalize (w h : Nat) : Nat × Nat :=
  if 1024 < max w h then thumbnailSize w h else (w, h)

/-! ## Codec: data-URI payload selection on line 93 -/

/-- Python `str.split(',')`: split at every comma, keeping empty fields. -/
def splitComma (cs : List Char) : List (List Char) :=
  cs.foldr (fun c acc =>
    if c = ',' then [] :: acc else (c :: acc.headI) :: acc.tail) [[]]

/-- Line 93, `base64_image.split(',')[1] if ',' in base64_image else base64_image`:
the string handed to `base64.b64decode`. -/
def payloadChars (cs : List Char) : List Char :=
  if ',' ∈ cs then (splitComma cs).getD 1 [] else cs

/-- String-level wrapper of `payloadChars`. -/
def payloadOf (s : String) : String := String.mk (payloadChars s.toList)

/-- Everything after the first comma (the payload the spec sentence for
the Codec describes: strip the data-URI prefix up to its comma). -/
def afterFirstComma (cs : List Char) : List Char :=
  (cs.dropWhile (fun c => c ≠ ',')).drop 1

/-- The second comma-separated field: what stands between the first and
the second comma (or up to the end when there is no second comma). -/
def secondField (cs : List Char) : List Char :=
  (afterFirstComma cs).takeWhile (fun c => c ≠ ',')

/-! ## Protocol Loop and `process_image` pipeline -/

/-- JSON values as produced by `json.loads`. -/
inductive Json
  | jnull
  | jbool (b : Bool)
  | jnum (n : Int)
  | jstr (s : String)
  | jarr (xs : List Json)
  | jobj (fields : List (String × Json))

/-- The dictionary shape of a `ResultEvent`: `success`, optional `image`,
optional `error` (a key is modelled as present iff the option is some). -/
structure ResultMsg where
  success : Bool
  image : Option String
  error : Option String
deriving DecidableEq, Repr

/-- One line written to stdout by the worker. -/
inductive Out
  | progress (value : Nat)
  | result (r : ResultMsg)
  | status (success : Bool) (st : String)
deriving DecidableEq, Repr

/-- External collaborators of the pipeline (standard library and the
segmentation engine), as step functions that may fail: `base64.b64decode`,
`Image.open(...).convert("RGB")`, the preprocessing raster primitives,
LANCZOS resampling at fixed target dimensions, `rembg.remove`, and PNG
serialization plus base64 encoding. -/
structure ExtOps where
  b64decode : String → Except String (List Nat)
  openRGB : List Nat → Except String Img
  preprocess : Img → Except String Img
  resample : Img → Nat × Nat → Nat → Nat → List Nat
  removeBg : Img → Img → Except String Img
  encodePNG : Img → Except String String

/-- PIL `thumbnail` resize step: build the raster at the computed target
dimensions with externally resampled pixels. -/
def resizeTo (E : ExtOps) (im : Img) (d : Nat × Nat) : Img :=
  ⟨im.mode, (List.range d.2).map (fun y =>
    (List.range d.1).map (fun x => E.resample im d y x))⟩

/-- Lines 103-106 of `process_image`:
`if max(input_image.size) > 1024: input_image.thumbnail((1024,1024), LANCZOS)`. -/
def afterResize (E : ExtOps) (im : Img) : Img :=
  if 1024 < max im.width im.height then
    resizeTo E im (thumbnailSize im.width im.height)
  else im

/-- Function `process_image(base64_image)`: progress prints and the returned result
dictionary; every failure inside the `try` block is caught and turned into
a `success:false` result carrying `str(e)`. -/
def process_image (E : ExtOps) (s : String) : List Out × ResultMsg :=
  match E.b64decode (payloadOf s) with
  | .error e => ([.progress 10], ⟨false, none, some e⟩)
  | .ok bs =>
    match E.openRGB bs with
    | .error e => ([.progress 10, .progress 20], ⟨false, none, some e⟩)
    | .ok im0 =>
      match E.preprocess im0 with
      | .error e => ([.progress 10, .progress 20], ⟨false, none, some e⟩)
      | .ok im1 =>
        let im2 := afterResize E im1
        let mask := create_custom_mask im2
        match E.removeBg im2 mask with
        | .error e =>
            ([.progress 10, .progress 20, .progress 40, .progress 60],
             ⟨false, none, some e⟩)
        | .ok seg =>
          let out := trim_transparent_borders seg
          match E.encodePNG out with
          | .error e =>
              ([.progress 10, .progress 20, .progress 40, .progress 60,
                .progress 95], ⟨false, none, some e⟩)
          | .ok b64 =>
              ([.progress 10, .progress 20, .progress 40, .progress 60,
                .progress 95, .progress 100],
               ⟨true, some (String.append "data:image/png;base64," b64), none⟩)

/-- Call `process_image(data.get("image", ""))` on the raw JSON value of the
`image` key: a non-string value raises a `TypeError` at the
`',' in base64_image` test on line 93, after the first progress print,
inside the `try` block. -/
def processImageVal (E : ExtOps) (v : Json) : List Out × ResultMsg :=
  match v with
  | .jstr s => process_image E s
  | _ => ([.progress 10], ⟨false, none, some "TypeError"⟩)

/-- Handling of one input line by `main`. The argument is the outcome of
`json.loads(line.strip())`; the result is the list of emitted output lines
and whether the loop keeps reading. A `json.loads` failure or the
`AttributeError` of `.get` on a non-dict value is caught by the
`except` clause of the loop and answered with a result-shaped error. -/
def handleLine (E : ExtOps) (pl : Except String Json) : List Out × Bool :=
  match pl with
  | .error e => ([.result ⟨false, none, some e⟩], true)
  | .ok (.jobj fields) =>
    match List.lookup "command" fields with
    | some (.jstr c) =>
      if c = "process" then
        let img := (List.lookup "image" fields).getD (.jstr "")
        let pr := processImageVal E img
        (pr.1 ++ [.result pr.2], true)
      else if c = "health" then ([.status true "ready"], true)
      else if c = "warmup" then ([.status true "ready"], true)
      else if c = "shutdown" then ([.status true "bye"], false)
      else ([], true)
    | _ => ([], true)
  | .ok _ => ([.result ⟨false, none, some "AttributeError"⟩], true)

/-- The persistent loop of `main`: handle each line in order, stopping
when a line asks for shutdown (or at end of input). -/
def runLoop (E : ExtOps) : List (Except String Json) → List Out
  | [] => []
  | l :: ls =>
    let pr := handleLine E l
    pr.1 ++ (if pr.2 then runLoop E ls else [])

/-- True of commands the dispatcher of `main` recognizes. -/
def recognizedCmd : Option Json → Bool
  | some (.jstr c) => c = "process" ∨ c = "health" ∨ c = "warmup" ∨ c = "shutdown"
  | _ => false

/-- The `command` field of a parsed line (`data.get("command")`). -/
def cmdOf : Json → Option Json
  | .jobj fields => List.lookup "command" fields
  | _ => none

/-- A line that is not valid JSON or whose command field is not one of the
four recognized commands (the premise of the spec sentence behind C1). -/
def badLine : Except String Json → Prop
  | .error _ => True
  | .ok j => recognizedCmd (cmdOf j) = false

/-- There is a result-shaped error response among the emitted lines. -/
def emitsError (out : List Out) : Prop :=
  ∃ r, Out.result r ∈ out ∧ r.success = false

/-- Recognizer for result events among output lines. -/
def isResultOut : Out → Bool
  | .result _ => true
  | _ => false

/-! ## Helper lemmas: trimmer -/

lemma normalizeRGBA_mode (img : Img) : (normalizeRGBA img).mode = Mode.RGBA := by
  unfold normalizeRGBA
  split
  · assumption
  · rfl

lemma normalizeRGBA_of_rgba {img : Img} (h : img.mode = Mode.RGBA) :
    normalizeRGBA img = img := if_pos h

lemma normalizeRGBA_of_not {img : Img} (h : ¬ img.mode = Mode.RGBA) :
    normalizeRGBA img = convertRGBA img := if_neg h

lemma convertRGBA_height (img : Img) : (convertRGBA img).height = img.height := by
  simp [convertRGBA, Img.height]

lemma convertRGBA_width (img : Img) : (convertRGBA img).width = img.width := by
  unfold convertRGBA Img.width
  simp only [List.getElem?_map]
  cases img.data[0]? <;> simp

lemma cropImg_height (img : Img) (l t r b : Nat) :
    (cropImg img l t r b).height = b - t := by
  simp [cropImg, Img.height]

lemma cropImg_width (img : Img) (l t r b : Nat) (h : 0 < b - t) :
    (cropImg img l t r b).width = r - l := by
  unfold cropImg Img.width
  simp only [List.getElem?_map, List.getElem?_range h]
  simp

lemma pxAt_crop (img : Img) (l t r b dy dx : Nat) (hy : dy < b - t) (hx : dx < r - l) :
    pxAt (cropImg img l t r b).data dy dx = pxAt img.data (t + dy) (l + dx) := by
  unfold cropImg pxAt
  simp only [List.getElem?_map, List.getElem?_range hy]
  simp only [Option.map_some', Option.getD_some, List.getElem?_map,
    List.getElem?_range hx]

lemma mem_maskRows {img : Img} {y : Nat} :
    y ∈ maskRows img ↔ y < img.height ∧ ∃ x, x < img.width ∧ 8 < img.alphaAt y x := by
  simp [maskRows, Finset.mem_filter, Finset.mem_range]

lemma mem_maskCols {img : Img} {x : Nat} :
    x ∈ maskCols img ↔ x < img.width ∧ ∃ y, y < img.height ∧ 8 < img.alphaAt y x := by
  simp [maskCols, Finset.mem_filter, Finset.mem_range]

lemma trimCore_of_lt {I : Img} (h : I.mode.channels < 4) : trimCore I = I := by
  unfold trimCore
  rw [if_pos h]

lemma trimCore_of_empty {I : Img}
    (hne : ¬ ((maskRows I).Nonempty ∧ (maskCols I).Nonempty)) : trimCore I = I := by
  unfold trimCore
  rw [dif_neg hne]
  split <;> rfl

lemma trimCore_of_full {I : Img} (h1 : (maskRows I).Nonempty) (h2 : (maskCols I).Nonempty)
    (hf : (maskRows I).min' h1 - 4 = 0 ∧ (maskCols I).min' h2 - 4 = 0 ∧
          min ((maskRows I).max' h1 + 4) (I.height - 1) = I.height - 1 ∧
          min ((maskCols I).max' h2 + 4) (I.width - 1) = I.width - 1) :
    trimCore I = I := by
  unfold trimCore
  rw [dif_pos ⟨h1, h2⟩, if_pos hf]
  split <;> rfl

lemma trimCore_of_crop {I : Img} (hch : ¬ I.mode.channels < 4)
    (h1 : (maskRows I).Nonempty) (h2 : (maskCols I).Nonempty)
    (hnf : ¬ ((maskRows I).min' h1 - 4 = 0 ∧ (maskCols I).min' h2 - 4 = 0 ∧
          min ((maskRows I).max' h1 + 4) (I.height - 1) = I.height - 1 ∧
          min ((maskCols I).max' h2 + 4) (I.width - 1) = I.width - 1)) :
    trimCore I = cropImg I ((maskCols I).min' h2 - 4) ((maskRows I).min' h1 - 4)
      (min ((maskCols I).max' h2 + 4) (I.width - 1) + 1)
      (min ((maskRows I).max' h1 + 4) (I.height - 1) + 1) := by
  unfold trimCore
  rw [if_neg hch, dif_pos ⟨h1, h2⟩, if_neg hnf]

lemma trimCore_mode (I : Img) : (trimCore I).mode = I.mode := by
  unfold trimCore
  split
  · rfl
  · split
    · split <;> rfl
    · rfl

lemma trim_mode (img : Img) :
    (trim_transparent_borders img).mode = Mode.RGBA := by
  unfold trim_transparent_borders
  rw [trimCore_mode, normalizeRGBA_mode]

lemma trimCore_crop_self {I : Img} (hch : ¬ I.mode.channels < 4)
    (h1 : (maskRows I).Nonempty) (h2 : (maskCols I).Nonempty) :
    trimCore (cropImg I ((maskCols I).min' h2 - 4) ((maskRows I).min' h1 - 4)
      (min ((maskCols I).max' h2 + 4) (I.width - 1) + 1)
      (min ((maskRows I).max' h1 + 4) (I.height - 1) + 1)) =
    cropImg I ((maskCols I).min' h2 - 4) ((maskRows I).min' h1 - 4)
      (min ((maskCols I).max' h2 + 4) (I.width - 1) + 1)
      (min ((maskRows I).max' h1 + 4) (I.height - 1) + 1) := by
  set ymin := (maskRows I).min' h1 with hymin
  set ymax := (maskRows I).max' h1 with hymax
  set xmin := (maskCols I).min' h2 with hxmin
  set xmax := (maskCols I).max' h2 with hxmax
  set t := ymin - 4 with ht
  set b := min (ymax + 4) (I.height - 1) with hb
  set l := xmin - 4 with hl
  set r := min (xmax + 4) (I.width - 1) with hr
  set J := cropImg I l t (r + 1) (b + 1) with hJ
  have hyminmem := Finset.min'_mem (maskRows I) h1
  have hymaxmem := Finset.max'_mem (maskRows I) h1
  have hxminmem := Finset.min'_mem (maskCols I) h2
  have hxmaxmem := Finset.max'_mem (maskCols I) h2
  rw [← hymin] at hyminmem
  rw [← hymax] at hymaxmem
  rw [← hxmin] at hxminmem
  rw [← hxmax] at hxmaxmem
  have hyy : ymin ≤ ymax := Finset.min'_le _ _ hymaxmem
  have hxx : xmin ≤ xmax := Finset.min'_le _ _ hxmaxmem
  obtain ⟨hyminh, x1, hx1w, hx1a⟩ := mem_maskRows.mp hyminmem
  obtain ⟨hymaxh, x2, hx2w, hx2a⟩ := mem_maskRows.mp hymaxmem
  obtain ⟨hxminw, y3, hy3h, hy3a⟩ := mem_maskCols.mp hxminmem
  obtain ⟨hxmaxw, y4, hy4h, hy4a⟩ := mem_maskCols.mp hxmaxmem
  have hx1c : x1 ∈ maskCols I := mem_maskCols.mpr ⟨hx1w, ymin, hyminh, hx1a⟩
  have hx2c : x2 ∈ maskCols I := mem_maskCols.mpr ⟨hx2w, ymax, hymaxh, hx2a⟩
  have hy3r : y3 ∈ maskRows I := mem_maskRows.mpr ⟨hy3h, xmin, hxminw, hy3a⟩
  have hy4r : y4 ∈ maskRows I := mem_maskRows.mpr ⟨hy4h, xmax, hxmaxw, hy4a⟩
  have hx1ge : xmin ≤ x1 := Finset.min'_le _ _ hx1c
  have hx1le : x1 ≤ xmax := Finset.le_max' _ _ hx1c
  have hx2ge : xmin ≤ x2 := Finset.min'_le _ _ hx2c
  have hx2le : x2 ≤ xmax := Finset.le_max' _ _ hx2c
  have hy3ge : ymin ≤ y3 := Finset.min'_le _ _ hy3r
  have hy3le : y3 ≤ ymax := Finset.le_max' _ _ hy3r
  have hy4ge : ymin ≤ y4 := Finset.min'_le _ _ hy4r
  have hy4le : y4 ≤ ymax := Finset.le_max' _ _ hy4r
  have hJh : J.height = b + 1 - t := cropImg_height I l t (r + 1) (b + 1)
  have hJhpos : 0 < b + 1 - t := by omega
  have hJw : J.width = r + 1 - l := cropImg_width I l t (r + 1) (b + 1) hJhpos
  have halpha : ∀ dy dx, dy < b + 1 - t → dx < r + 1 - l →
      J.alphaAt dy dx = I.alphaAt (t + dy) (l + dx) := by
    intro dy dx hy hx
    unfold Img.alphaAt
    rw [hJ, pxAt_crop I l t (r + 1) (b + 1) dy dx hy hx]
  have hmem1 : ymin - t ∈ maskRows J := by
    rw [mem_maskRows, hJh, hJw]
    refine ⟨by omega, x1 - l, by omega, ?_⟩
    rw [halpha _ _ (by omega) (by omega)]
    have e1 : t + (ymin - t) = ymin := by omega
    have e2 : l + (x1 - l) = x1 := by omega
    rw [e1, e2]
    exact hx1a
  have hmem2 : ymax - t ∈ maskRows J := by
    rw [mem_maskRows, hJh, hJw]
    refine ⟨by omega, x2 - l, by omega, ?_⟩
    rw [halpha _ _ (by omega) (by omega)]
    have e1 : t + (ymax - t) = ymax := by omega
    have e2 : l + (x2 - l) = x2 := by omega
    rw [e1, e2]
    exact hx2a
  have hmem3 : xmin - l ∈ maskCols J := by
    rw [mem_maskCols, hJh, hJw]
    refine ⟨by omega, y3 - t, by omega, ?_⟩
    rw [halpha _ _ (by omega) (by omega)]
    have e1 : t + (y3 - t) = y3 := by omega
    have e2 : l + (xmin - l) = xmin := by omega
    rw [e1, e2]
    exact hy3a
  have hmem4 : xmax - l ∈ maskCols J := by
    rw [mem_maskCols, hJh, hJw]
    refine ⟨by omega, y4 - t, by omega, ?_⟩
    rw [halpha _ _ (by omega) (by omega)]
    have e1 : t + (y4 - t) = y4 := by omega
    have e2 : l + (xmax - l) = xmax := by omega
    rw [e1, e2]
    exact hy4a
  have g1 : (maskRows J).Nonempty := ⟨ymin - t, hmem1⟩
  have g2 : (maskCols J).Nonempty := ⟨xmin - l, hmem3⟩
  have hA : (maskRows J).min' g1 - 4 = 0 := by
    have := Finset.min'_le _ _ hmem1
    omega
  have hB : (maskCols J).min' g2 - 4 = 0 := by
    have := Finset.min'_le _ _ hmem3
    omega
  have hC : min ((maskRows J).max' g1 + 4) (J.height - 1) = J.height - 1 := by
    have := Finset.le_max' _ _ hmem2
    rw [hJh]
    omega
  have hD : min ((maskCols J).max' g2 + 4) (J.width - 1) = J.width - 1 := by
    have := Finset.le_max' _ _ hmem4
    rw [hJw]
    omega
  have hchJ : ¬ J.mode.channels < 4 := by
    rw [hJ]
    exact hch
  exact trimCore_of_full g1 g2 ⟨hA, hB, hC, hD⟩

lemma trimCore_idem (I : Img) : trimCore (trimCore I) = trimCore I := by
  by_cases hch : I.mode.channels < 4
  · rw [trimCore_of_lt hch, trimCore_of_lt hch]
  · by_cases hne : (maskRows I).Nonempty ∧ (maskCols I).Nonempty
    · obtain ⟨h1, h2⟩ := hne
      by_cases hf : (maskRows I).min' h1 - 4 = 0 ∧ (maskCols I).min' h2 - 4 = 0 ∧
          min ((maskRows I).max' h1 + 4) (I.height - 1) = I.height - 1 ∧
          min ((maskCols I).max' h2 + 4) (I.width - 1) = I.width - 1
      · rw [trimCore_of_full h1 h2 hf, trimCore_of_full h1 h2 hf]
      · rw [trimCore_of_crop hch h1 h2 hf]
        exact trimCore_crop_self hch h1 h2
    · rw [trimCore_of_empty hne, trimCore_of_empty hne]

lemma convertRGBA_alpha {img : Img} (hwf : img.WF) (hm : ¬ img.mode = Mode.RGBA)
    {y x : Nat} (hy : y < img.height) (hx : x < img.width) :
    (convertRGBA img).alphaAt y x = 255 := by
  unfold Img.alphaAt pxAt convertRGBA
  simp only [List.getElem?_map]
  have hy' : y < img.data.length := hy
  rw [List.getElem?_eq_getElem hy']
  simp only [Option.map_some', Option.getD_some, List.getElem?_map]
  have hrow : (img.data[y]).length = img.width :=
    hwf.1 _ (List.getElem_mem hy')
  have hx' : x < (img.data[y]).length := by rw [hrow]; exact hx
  rw [List.getElem?_eq_getElem hx']
  simp only [Option.map_some', Option.getD_some]
  cases hmode : img.mode with
  | L => simp [convPixToRGBA]
  | RGB => simp [convPixToRGBA]
  | RGBA => exact absurd hmode hm

lemma trimCore_full_alpha {I : Img}
    (halpha : ∀ y x, y < I.height → x < I.width → I.alphaAt y x = 255) :
    trimCore I = I := by
  by_cases hne : (maskRows I).Nonempty ∧ (maskCols I).Nonempty
  · obtain ⟨h1, h2⟩ := hne
    obtain ⟨y0, hy0⟩ := h1
    obtain ⟨x0, hx0⟩ := h2
    have hy0' := mem_maskRows.mp hy0
    have hx0' := mem_maskCols.mp hx0
    have hhpos : 0 < I.height := by omega
    have hwpos : 0 < I.width := by
      obtain ⟨-, x', hx', -⟩ := hy0'
      omega
    have hmem0r : 0 ∈ maskRows I := by
      rw [mem_maskRows]
      exact ⟨hhpos, 0, hwpos, by rw [halpha 0 0 hhpos hwpos]; omega⟩
    have hmemhr : I.height - 1 ∈ maskRows I := by
      rw [mem_maskRows]
      exact ⟨by omega, 0, hwpos, by rw [halpha _ 0 (by omega) hwpos]; omega⟩
    have hmem0c : 0 ∈ maskCols I := by
      rw [mem_maskCols]
      exact ⟨hwpos, 0, hhpos, by rw [halpha 0 0 hhpos hwpos]; omega⟩
    have hmemwc : I.width - 1 ∈ maskCols I := by
      rw [mem_maskCols]
      exact ⟨by omega, 0, hhpos, by rw [halpha 0 _ hhpos (by omega)]; omega⟩
    have hA : (maskRows I).min' ⟨y0, hy0⟩ - 4 = 0 := by
      have := Finset.min'_le _ _ hmem0r
      omega
    have hB : (maskCols I).min' ⟨x0, hx0⟩ - 4 = 0 := by
      have := Finset.min'_le _ _ hmem0c
      omega
    have hC : min ((maskRows I).max' ⟨y0, hy0⟩ + 4) (I.height - 1) = I.height - 1 := by
      have := Finset.le_max' _ _ hmemhr
      omega
    have hD : min ((maskCols I).max' ⟨x0, hx0⟩ + 4) (I.width - 1) = I.width - 1 := by
      have := Finset.le_max' _ _ hmemwc
      omega
    exact trimCore_of_full ⟨y0, hy0⟩ ⟨x0, hx0⟩ ⟨hA, hB, hC, hD⟩
  · exact trimCore_of_empty hne

/-! ## Claims about the Border Trimmer -/

/-- C3 counterexample: a 1×1 RGB raster is not returned unchanged — the
trimmer first converts it to RGBA, so the output mode differs from the
input mode. This refutes the claim that any raster without an alpha
channel passes through `trim_transparent_borders` with the same pixels,
mode and dimensions. -/
theorem C3_counterexample :
    ¬ (∀ img : Img, img.mode ≠ Mode.RGBA → trim_transparent_borders img = img) := by
  intro hcl
  have h := hcl ⟨Mode.RGB, [[[5, 6, 7]]]⟩ (by decide)
  exact absurd h (by decide)

/-- C3 amended: for a well-formed raster without an alpha channel, the
Border Trimmer returns the RGBA conversion of that raster (same
dimensions, colour channels preserved, alpha filled with 255) rather than
the raster itself; the mode of the output is RGBA, not the input mode. -/
theorem C3_amended (img : Img) (hwf : img.WF) (hm : img.mode ≠ Mode.RGBA) :
    trim_transparent_borders img = convertRGBA img ∧
    (convertRGBA img).mode = Mode.RGBA ∧
    (convertRGBA img).height = img.height ∧
    (convertRGBA img).width = img.width := by
  refine ⟨?_, rfl, convertRGBA_height img, convertRGBA_width img⟩
  unfold trim_transparent_borders
  rw [normalizeRGBA_of_not hm]
  apply trimCore_full_alpha
  intro y x hy hx
  rw [convertRGBA_height] at hy
  rw [convertRGBA_width] at hx
  exact convertRGBA_alpha hwf hm hy hx

/-- C3 amended, instantiated at a concrete 1×1 RGB raster. -/
theorem C3_amended_witness :
    (Img.WF ⟨Mode.RGB, [[[5, 6, 7]]]⟩ ∧ (⟨Mode.RGB, [[[5, 6, 7]]]⟩ : Img).mode ≠ Mode.RGBA) ∧
    (trim_transparent_borders ⟨Mode.RGB, [[[5, 6, 7]]]⟩ = convertRGBA ⟨Mode.RGB, [[[5, 6, 7]]]⟩ ∧
     (convertRGBA ⟨Mode.RGB, [[[5, 6, 7]]]⟩).mode = Mode.RGBA ∧
     (convertRGBA ⟨Mode.RGB, [[[5, 6, 7]]]⟩).height = (⟨Mode.RGB, [[[5, 6, 7]]]⟩ : Img).height ∧
     (convertRGBA ⟨Mode.RGB, [[[5, 6, 7]]]⟩).width = (⟨Mode.RGB, [[[5, 6, 7]]]⟩ : Img).width) :=
  ⟨⟨by constructor <;> decide, by decide⟩,
   C3_amended ⟨Mode.RGB, [[[5, 6, 7]]]⟩ (by constructor <;> decide) (by decide)⟩

/-- C6: an RGBA raster in which no pixel's alpha exceeds the trim
threshold 8 is returned unchanged by the Border Trimmer (the
`if not np.any(mask): return image` early return). -/
theorem C6_all_transparent_unchanged (img : Img) (hm : img.mode = Mode.RGBA)
    (ha : ∀ y < img.height, ∀ x < img.width, img.alphaAt y x ≤ 8) :
    trim_transparent_borders img = img := by
  unfold trim_transparent_borders
  rw [normalizeRGBA_of_rgba hm]
  apply trimCore_of_empty
  rintro ⟨⟨y, hy⟩, -⟩
  obtain ⟨hyh, x, hxw, hxa⟩ := mem_maskRows.mp hy
  have := ha y hyh x hxw
  omega

/-- C6 instantiated at a concrete 1×1 RGBA raster with alpha 4. -/
theorem C6_witness :
    ((⟨Mode.RGBA, [[[1, 2, 3, 4]]]⟩ : Img).mode = Mode.RGBA ∧
     (∀ y < (⟨Mode.RGBA, [[[1, 2, 3, 4]]]⟩ : Img).height,
        ∀ x < (⟨Mode.RGBA, [[[1, 2, 3, 4]]]⟩ : Img).width,
          (⟨Mode.RGBA, [[[1, 2, 3, 4]]]⟩ : Img).alphaAt y x ≤ 8)) ∧
    trim_transparent_borders ⟨Mode.RGBA, [[[1, 2, 3, 4]]]⟩ = ⟨Mode.RGBA, [[[1, 2, 3, 4]]]⟩ :=
  ⟨⟨by decide, by decide⟩,
   C6_all_transparent_unchanged ⟨Mode.RGBA, [[[1, 2, 3, 4]]]⟩ (by decide) (by decide)⟩

/-- C7: the Border Trimmer is idempotent — trimming its own output again
returns that output unchanged. -/
theorem C7_trim_idempotent (img : Img) :
    trim_transparent_borders (trim_transparent_borders img) =
      trim_transparent_borders img := by
  unfold trim_transparent_borders
  rw [normalizeRGBA_of_rgba (by rw [trimCore_mode, normalizeRGBA_mode])]
  exact trimCore_idem _

/-- C10: every output of the Border Trimmer has mode RGBA (even when the
input lacked an alpha channel), and every return path yields either the
RGBA-normalized image itself or a crop of it. -/
theorem C10_trim_output_rgba (img : Img) :
    (trim_transparent_borders img).mode = Mode.RGBA ∧
    (trim_transparent_borders img = normalizeRGBA img ∨
     ∃ l t r b, trim_transparent_borders img = cropImg (normalizeRGBA img) l t r b) := by
  refine ⟨trim_mode img, ?_⟩
  unfold trim_transparent_borders
  by_cases hch : (normalizeRGBA img).mode.channels < 4
  · exact Or.inl (trimCore_of_lt hch)
  · by_cases hne : (maskRows (normalizeRGBA img)).Nonempty ∧
        (maskCols (normalizeRGBA img)).Nonempty
    · obtain ⟨h1, h2⟩ := hne
      by_cases hf : (maskRows (normalizeRGBA img)).min' h1 - 4 = 0 ∧
          (maskCols (normalizeRGBA img)).min' h2 - 4 = 0 ∧
          min ((maskRows (normalizeRGBA img)).max' h1 + 4)
            ((normalizeRGBA img).height - 1) = (normalizeRGBA img).height - 1 ∧
          min ((maskCols (normalizeRGBA img)).max' h2 + 4)
            ((normalizeRGBA img).width - 1) = (normalizeRGBA img).width - 1
      · exact Or.inl (trimCore_of_full h1 h2 hf)
      · exact Or.inr ⟨_, _, _, _, trimCore_of_crop hch h1 h2 hf⟩
    · exact Or.inl (trimCore_of_empty hne)

/-! ## Claims about the Mask Synthesizer -/

lemma create_custom_mask_height (img : Img) :
    (create_custom_mask img).height = img.height := by
  simp [create_custom_mask, Img.height]

lemma create_custom_mask_width (img : Img) :
    (create_custom_mask img).width = img.width := by
  unfold create_custom_mask Img.width
  rcases Nat.eq_zero_or_pos img.height with h0 | hpos
  · have hdata : img.data = [] := List.length_eq_zero.mp h0
    simp [h0, hdata]
  · simp only [List.getElem?_map, List.getElem?_range hpos]
    simp

lemma pxAt_create_custom_mask (img : Img) (y x : Nat)
    (hy : y < img.height) (hx : x < img.width) :
    pxAt (create_custom_mask img).data y x = [dilateAt img y x] := by
  unfold create_custom_mask pxAt
  simp only [List.getElem?_map, List.getElem?_range hy]
  simp only [Option.map_some', Option.getD_some, List.getElem?_map,
    List.getElem?_range hx]

lemma mem01_max {a b : Nat} (ha : a = 0 ∨ a = 255) (hb : b = 0 ∨ b = 255) :
    max a b = 0 ∨ max a b = 255 := by
  rcases ha with h | h <;> rcases hb with h' | h' <;> simp [h, h']

lemma threshAtSafe_mem01 (img : Img) (y x : Nat) :
    threshAtSafe img y x = 0 ∨ threshAtSafe img y x = 255 := by
  unfold threshAtSafe threshAt
  split
  · split
    · exact Or.inl rfl
    · exact Or.inr rfl
  · exact Or.inl rfl

lemma dilateAt_mem01 (img : Img) (y x : Nat) :
    dilateAt img y x = 0 ∨ dilateAt img y x = 255 := by
  unfold dilateAt
  exact mem01_max
    (mem01_max
      (mem01_max (threshAtSafe_mem01 img (y-1) (x-1))
        (mem01_max (threshAtSafe_mem01 img (y-1) x) (threshAtSafe_mem01 img (y-1) (x+1))))
      (mem01_max (threshAtSafe_mem01 img y (x-1))
        (mem01_max (threshAtSafe_mem01 img y x) (threshAtSafe_mem01 img y (x+1)))))
    (mem01_max (threshAtSafe_mem01 img (y+1) (x-1))
      (mem01_max (threshAtSafe_mem01 img (y+1) x) (threshAtSafe_mem01 img (y+1) (x+1))))

/-- C5 counterexample: the claim marks foreground exactly where luminance
is strictly below the cutoff 200, but `cv2.THRESH_BINARY_INV` yields 255
for luminance exactly 200 as well (`dst = 0 iff src > thresh`): the 1×1
raster with pixel (200,200,200) has luminance exactly 200 and is marked
255 before dilation. -/
theorem C5_counterexample :
    ¬ (∀ (img : Img) (y x : Nat), y < img.height → x < img.width →
        ((create_custom_mask img).height = img.height ∧
         (create_custom_mask img).width = img.width) ∧
        (threshAt img y x = 255 ↔ grayAt img y x < 200) ∧
        (dilateAt img y x = 0 ∨ dilateAt img y x = 255)) := by
  intro hcl
  have h := ((hcl ⟨Mode.RGB, [[[200, 200, 200]]]⟩ 0 0 (by decide) (by decide)).2.1).mp
    (by decide)
  exact absurd h (by decide)

/-- C5 amended: the synthesized mask has the dimensions of its input; the
pre-dilation threshold marks exactly the pixels with luminance at or
below the cutoff 200 with 255 (strictly above 200 gives 0); in-canvas
mask pixels hold the dilated value, which is always 0 or 255. -/
theorem C5_amended (img : Img) (y x : Nat)
    (hy : y < img.height) (hx : x < img.width) :
    ((create_custom_mask img).height = img.height ∧
     (create_custom_mask img).width = img.width) ∧
    (threshAt img y x = 255 ↔ grayAt img y x ≤ 200) ∧
    (threshAt img y x = 0 ↔ 200 < grayAt img y x) ∧
    pxAt (create_custom_mask img).data y x = [dilateAt img y x] ∧
    (dilateAt img y x = 0 ∨ dilateAt img y x = 255) := by
  refine ⟨⟨create_custom_mask_height img, create_custom_mask_width img⟩, ?_, ?_,
    pxAt_create_custom_mask img y x hy hx, dilateAt_mem01 img y x⟩
  · unfold threshAt
    split <;> omega
  · unfold threshAt
    split <;> omega

/-- C5 amended, instantiated at the boundary raster with luminance 200. -/
theorem C5_amended_witness :
    (0 < (⟨Mode.RGB, [[[200, 200, 200]]]⟩ : Img).height ∧
     0 < (⟨Mode.RGB, [[[200, 200, 200]]]⟩ : Img).width) ∧
    (threshAt ⟨Mode.RGB, [[[200, 200, 200]]]⟩ 0 0 = 255 ↔
      grayAt ⟨Mode.RGB, [[[200, 200, 200]]]⟩ 0 0 ≤ 200) :=
  ⟨⟨by decide, by decide⟩,
   (C5_amended ⟨Mode.RGB, [[[200, 200, 200]]]⟩ 0 0 (by decide) (by decide)).2.1⟩

/-! ## Claims about the Size Normalizer -/

lemma roundAspectW_spec (w h : Nat) (hw : 0 < w) (hwh : w ≤ h) (hh : 1024 < h) :
    roundAspectW w h ≤ 1024 ∧ roundAspectW w h ≤ w ∧
    w * 1024 < roundAspectW w h * h + h ∧ roundAspectW w h * h < w * 1024 + h := by
  unfold roundAspectW
  have hdm := Nat.div_add_mod (1024 * w) h
  have hrlt : 1024 * w % h < h := Nat.mod_lt _ (by omega)
  have hfle : 1024 * w / h ≤ 1024 := by
    calc 1024 * w / h ≤ 1024 * h / h := Nat.div_le_div_right (by omega)
      _ = 1024 := Nat.mul_div_cancel 1024 (by omega)
  have hfw : 1024 * w / h ≤ w := by
    calc 1024 * w / h ≤ h * w / h :=
          Nat.div_le_div_right (Nat.mul_le_mul_right w (by omega))
      _ = w := Nat.mul_div_cancel_left w (by omega)
  have hmod0 : w = h → 1024 * w % h = 0 := by
    intro he
    rw [he]
    exact Nat.mul_mod_left 1024 h
  have hflt : w < h → 1024 * w / h < 1024 := fun hlt =>
    Nat.div_lt_of_lt_mul (by omega : 1024 * w < h * 1024)
  have hfltw : 1024 * w / h < w :=
    Nat.div_lt_of_lt_mul ((Nat.mul_lt_mul_right hw).mpr (by omega : 1024 < h))
  generalize hreq : 1024 * w % h = r at hdm hrlt hmod0 ⊢
  generalize hfeq : 1024 * w / h = f at hdm hfle hfw hflt hfltw ⊢
  rw [Nat.mul_comm h f] at hdm
  by_cases h2r : 2 * r ≤ h
  · rw [if_pos h2r]
    rcases Nat.eq_zero_or_pos f with hf0 | hfpos
    · rw [hf0] at hdm ⊢
      rw [Nat.zero_max, Nat.one_mul]
      omega
    · have hmax : max f 1 = f := by omega
      rw [hmax]
      generalize hP : f * h = P at hdm ⊢
      omega
  · rw [if_neg h2r]
    have hwlt : w < h := by
      rcases Nat.eq_or_lt_of_le hwh with he | hlt
      · exact absurd (hmod0 he) (by omega)
      · exact hlt
    have hmax : max (f + 1) 1 = f + 1 := by omega
    rw [hmax, Nat.add_mul, Nat.one_mul]
    have hflt2 := hflt hwlt
    generalize hP : f * h = P at hdm ⊢
    omega

lemma roundAspectH_spec (w h : Nat) (hh : 0 < h) (hhw : h < w) (hw : 1024 < w) :
    roundAspectH w h ≤ 1024 ∧ roundAspectH w h ≤ h ∧
    w * roundAspectH w h < 1024 * h + w ∧ 1024 * h < w * roundAspectH w h + w := by
  unfold roundAspectH
  have hdm := Nat.div_add_mod (1024 * h) w
  have hrlt : 1024 * h % w < w := Nat.mod_lt _ (by omega)
  have hflt : 1024 * h / w < 1024 :=
    Nat.div_lt_of_lt_mul (by omega : 1024 * h < w * 1024)
  have hflth : 1024 * h / w < h :=
    Nat.div_lt_of_lt_mul ((Nat.mul_lt_mul_right hh).mpr (by omega : 1024 < w))
  generalize hreq : 1024 * h % w = r at hdm hrlt ⊢
  generalize hfeq : 1024 * h / w = f at hdm hflt hflth ⊢
  rcases Nat.eq_zero_or_pos f with hf0 | hfpos
  · rw [if_pos hf0]
    rw [hf0] at hdm
    rw [Nat.zero_max, Nat.mul_one]
    omega
  · rw [if_neg (by omega)]
    by_cases hr0 : r = 0
    · rw [if_pos hr0]
      have hmax : max f 1 = f := by omega
      rw [hmax]
      generalize hP : w * f = P at hdm ⊢
      omega
    · rw [if_neg hr0]
      split
      · have hmax : max f 1 = f := by omega
        rw [hmax]
        generalize hP : w * f = P at hdm ⊢
        omega
      · have hmax : max (f + 1) 1 = f + 1 := by omega
        rw [hmax, Nat.mul_add, Nat.mul_one]
        generalize hP : w * f = P at hdm ⊢
        omega

lemma roundAspectW_zero (h : Nat) : roundAspectW 0 h = 1 := by
  unfold roundAspectW
  rw [Nat.mul_zero, Nat.zero_mod, Nat.zero_div, Nat.mul_zero, if_pos (by omega),
    Nat.zero_max]

lemma roundAspectH_zero (w : Nat) : roundAspectH w 0 = 1 := by
  unfold roundAspectH
  rw [Nat.mul_zero, Nat.zero_div, if_pos rfl, Nat.zero_max]

lemma thumbnailSize_le (w h : Nat) (hmax : 1024 < max w h) :
    (thumbnailSize w h).1 ≤ 1024 ∧ (thumbnailSize w h).2 ≤ 1024 := by
  unfold thumbnailSize
  rw [if_neg (by omega)]
  by_cases hwh : w ≤ h
  · rw [if_pos hwh]
    have hh : 1024 < h := by omega
    rcases Nat.eq_zero_or_pos w with h0 | hpos
    · subst h0
      rw [roundAspectW_zero]
      exact ⟨by omega, by omega⟩
    · exact ⟨(roundAspectW_spec w h hpos hwh hh).1, by omega⟩
  · rw [if_neg hwh]
    have hw : 1024 < w := by omega
    rcases Nat.eq_zero_or_pos h with h0 | hpos
    · subst h0
      rw [roundAspectH_zero]
      exact ⟨by omega, by omega⟩
    · exact ⟨by omega, (roundAspectH_spec w h hpos (by omega) hw).1⟩

lemma resizeTo_height (E : ExtOps) (im : Img) (d : Nat × Nat) :
    (resizeTo E im d).height = d.2 := by
  simp [resizeTo, Img.height]

lemma resizeTo_width_le (E : ExtOps) (im : Img) (d : Nat × Nat) :
    (resizeTo E im d).width ≤ d.1 := by
  unfold resizeTo Img.width
  rcases Nat.eq_zero_or_pos d.2 with h0 | hpos
  · simp [h0]
  · simp only [List.getElem?_map, List.getElem?_range hpos]
    simp

lemma afterResize_le (E : ExtOps) (im : Img) :
    (afterResize E im).width ≤ 1024 ∧ (afterResize E im).height ≤ 1024 := by
  unfold afterResize
  split
  · next hgt =>
    have hts := thumbnailSize_le im.width im.height hgt
    exact ⟨le_trans (resizeTo_width_le E im _) hts.1,
      le_of_eq_of_le (resizeTo_height E im _) hts.2⟩
  · next hle =>
    constructor <;> omega

/-- C4: the Size Normalizer passes through any raster already within
1024×1024 unchanged; a larger raster is downscaled so that neither
dimension exceeds 1024, neither dimension grows, and the aspect ratio is
preserved to within one rounding step of the scaled side (the
cross-products differ by less than the larger input dimension);
consequently the raster handed to mask synthesis and segmentation after
the resize step never exceeds 1024 on either side. -/
theorem C4_size_normalizer (w h : Nat) (hw : 0 < w) (hh : 0 < h) :
    (max w h ≤ 1024 → sizeNormalize w h = (w, h)) ∧
    ((sizeNormalize w h).1 ≤ 1024 ∧ (sizeNormalize w h).2 ≤ 1024) ∧
    (1024 < max w h →
      (sizeNormalize w h).1 ≤ w ∧ (sizeNormalize w h).2 ≤ h ∧
      w * (sizeNormalize w h).2 < (sizeNormalize w h).1 * h + max w h ∧
      (sizeNormalize w h).1 * h < w * (sizeNormalize w h).2 + max w h) ∧
    (∀ (E : ExtOps) (im : Img),
      (afterResize E im).width ≤ 1024 ∧ (afterResize E im).height ≤ 1024) := by
  refine ⟨?_, ?_, ?_, fun E im => afterResize_le E im⟩
  · intro hle
    unfold sizeNormalize
    rw [if_neg (by omega)]
  · by_cases hgt : 1024 < max w h
    · unfold sizeNormalize
      rw [if_pos hgt]
      exact thumbnailSize_le w h hgt
    · unfold sizeNormalize
      rw [if_neg hgt]
      exact ⟨by omega, by omega⟩
  · intro hgt
    unfold sizeNormalize
    rw [if_pos hgt]
    unfold thumbnailSize
    rw [if_neg (by omega)]
    by_cases hwh : w ≤ h
    · rw [if_pos hwh]
      have hhgt : 1024 < h := by omega
      have hs := roundAspectW_spec w h hw hwh hhgt
      have hmx : max w h = h := by omega
      rw [hmx]
      exact ⟨hs.2.1, by omega, hs.2.2.1, hs.2.2.2⟩
    · rw [if_neg hwh]
      have hwgt : 1024 < w := by omega
      have hs := roundAspectH_spec w h hh (by omega) hwgt
      have hmx : max w h = w := by omega
      rw [hmx]
      exact ⟨by omega, hs.2.1, hs.2.2.1, hs.2.2.2⟩

/-- C4 instantiated at the 2048×1024 raster dimensions. -/
theorem C4_size_normalizer_witness :
    ((0:Nat) < 2048 ∧ (0:Nat) < 1024) ∧
    (max 2048 1024 ≤ 1024 → sizeNormalize 2048 1024 = (2048, 1024)) ∧
    ((sizeNormalize 2048 1024).1 ≤ 1024 ∧ (sizeNormalize 2048 1024).2 ≤ 1024) :=
  ⟨⟨by decide, by decide⟩,
   (C4_size_normalizer 2048 1024 (by decide) (by decide)).1,
   (C4_size_normalizer 2048 1024 (by decide) (by decide)).2.1⟩

/-! ## Claims about the Protocol Loop and the pipeline result shape -/

/-- A concrete collaborator instance for witnesses: decode always fails. -/
def extFail : ExtOps :=
  ⟨fun _ => .error "invalid base64", fun _ => .error "cannot identify image file",
   fun im => .ok im, fun _ _ _ _ => [], fun im _ => .ok im, fun _ => .ok ""⟩

/-- A concrete collaborator instance for witnesses: decoding the empty
string yields empty bytes (as `base64.b64decode("")` does) and opening
empty bytes fails (as `Image.open` does). -/
def extEmptyBytes : ExtOps :=
  ⟨fun s => if s = "" then .ok [] else .error "bad base64",
   fun _ => .error "cannot identify image file",
   fun im => .ok im, fun _ _ _ _ => [], fun im _ => .ok im, fun _ => .ok ""⟩

lemma process_image_shape (E : ExtOps) (s : String) :
    (process_image E s).1.countP isResultOut = 0 ∧
    ((process_image E s).2.image.isSome ↔ (process_image E s).2.success = true) ∧
    ((process_image E s).2.error.isSome ↔ (process_image E s).2.success = false) := by
  rcases hb : E.b64decode (payloadOf s) with e | bs
  · simp [process_image, hb, isResultOut]
  rcases ho : E.openRGB bs with e | im0
  · simp [process_image, hb, ho, isResultOut]
  rcases hp : E.preprocess im0 with e | im1
  · simp [process_image, hb, ho, hp, isResultOut]
  rcases hr : E.removeBg (afterResize E im1) (create_custom_mask (afterResize E im1))
    with e | seg
  · simp [process_image, hb, ho, hp, hr, isResultOut]
  rcases he : E.encodePNG (trim_transparent_borders seg) with e | b64
  · simp [process_image, hb, ho, hp, hr, he, isResultOut]
  · simp [process_image, hb, ho, hp, hr, he, isResultOut]

lemma processImageVal_shape (E : ExtOps) (v : Json) :
    (processImageVal E v).1.countP isResultOut = 0 ∧
    ((processImageVal E v).2.image.isSome ↔ (processImageVal E v).2.success = true) ∧
    ((processImageVal E v).2.error.isSome ↔ (processImageVal E v).2.success = false) := by
  cases v with
  | jstr s => exact process_image_shape E s
  | jnull => exact ⟨rfl, by simp [processImageVal], by simp [processImageVal]⟩
  | jbool b => exact ⟨rfl, by simp [processImageVal], by simp [processImageVal]⟩
  | jnum n => exact ⟨rfl, by simp [processImageVal], by simp [processImageVal]⟩
  | jarr xs => exact ⟨rfl, by simp [processImageVal], by simp [processImageVal]⟩
  | jobj fields => exact ⟨rfl, by simp [processImageVal], by simp [processImageVal]⟩

lemma handleLine_process (E : ExtOps) (fields : List (String × Json))
    (hcmd : List.lookup "command" fields = some (Json.jstr "process")) :
    handleLine E (.ok (.jobj fields)) =
      ((processImageVal E ((List.lookup "image" fields).getD (.jstr ""))).1 ++
        [.result (processImageVal E ((List.lookup "image" fields).getD (.jstr ""))).2],
       true) := by
  simp [handleLine, hcmd]

/-- C2: one process invocation emits exactly one result event; it comes
last, the loop keeps running, and in the result the `image` key is
present iff `success` is true while the `error` key is present iff
`success` is false — on every path, success or caught exception. -/
theorem C2_one_result (E : ExtOps) (fields : List (String × Json))
    (hcmd : List.lookup "command" fields = some (Json.jstr "process")) :
    (handleLine E (.ok (.jobj fields))).2 = true ∧
    (handleLine E (.ok (.jobj fields))).1.countP isResultOut = 1 ∧
    ∀ r, Out.result r ∈ (handleLine E (.ok (.jobj fields))).1 →
      ((r.image.isSome ↔ r.success = true) ∧ (r.error.isSome ↔ r.success = false)) := by
  rw [handleLine_process E fields hcmd]
  have hs := processImageVal_shape E ((List.lookup "image" fields).getD (.jstr ""))
  refine ⟨rfl, ?_, ?_⟩
  · rw [List.countP_append, hs.1]
    rfl
  · intro r hr
    rcases List.mem_append.mp hr with hl | hr2
    · exact absurd rfl ((List.countP_eq_zero.mp hs.1) _ hl)
    · have : Out.result r =
          Out.result (processImageVal E ((List.lookup "image" fields).getD (.jstr ""))).2 :=
        List.mem_singleton.mp hr2
      cases this
      exact ⟨hs.2.1, hs.2.2⟩

/-- C2 instantiated: a concrete process line under the always-failing
collaborators. -/
theorem C2_one_result_witness :
    (List.lookup "command" [("command", Json.jstr "process")] =
      some (Json.jstr "process")) ∧
    ((handleLine extFail (.ok (.jobj [("command", Json.jstr "process")]))).2 = true ∧
     (handleLine extFail (.ok (.jobj [("command", Json.jstr "process")]))).1.countP
        isResultOut = 1 ∧
     ∀ r, Out.result r ∈
        (handleLine extFail (.ok (.jobj [("command", Json.jstr "process")]))).1 →
        ((r.image.isSome ↔ r.success = true) ∧ (r.error.isSome ↔ r.success = false))) :=
  ⟨rfl, C2_one_result extFail [("command", Json.jstr "process")] rfl⟩

/-- Recognizer for JSON objects (the only values whose `.get` does not
raise `AttributeError` in the loop). -/
def isObj : Json → Bool
  | .jobj _ => true
  | _ => false

/-- One unfolding step of the loop. -/
lemma runLoop_cons (E : ExtOps) (l : Except String Json)
    (ls : List (Except String Json)) :
    runLoop E (l :: ls) =
      (handleLine E l).1 ++ (if (handleLine E l).2 then runLoop E ls else []) := rfl

/-- C1 counterexample: a well-formed JSON object whose command is the
unrecognized string "resize" produces no output line at all — the
dispatcher has no else-branch — so no `ResultEvent`-shaped error response
is emitted for it, refuting the claim for the unrecognized-command half
of its premise. -/
theorem C1_counterexample :
    ¬ (∀ (E : ExtOps) (l : Except String Json), badLine l →
        emitsError (handleLine E l).1 ∧ (handleLine E l).2 = true) := by
  intro hcl
  have h := (hcl extFail (.ok (.jobj [("command", Json.jstr "resize")]))
    (by unfold badLine; decide)).1
  have he : handleLine extFail (.ok (.jobj [("command", Json.jstr "resize")])) =
      ([], true) := by
    simp [handleLine]
  rw [he] at h
  obtain ⟨r, hr, -⟩ := h
  exact List.not_mem_nil _ hr

/-- C1 amended: lines that fail JSON parsing, and valid-JSON lines that
are not objects (their `.get` raises `AttributeError`), are answered with
a result-shaped `success:false` response and the loop continues; but a
well-formed JSON object whose command is missing, non-string, or not one
of process/health/warmup/shutdown is silently ignored — no response line
is emitted — while the loop still continues. -/
theorem C1_amended (E : ExtOps) :
    (∀ (e : String) (ls : List (Except String Json)),
      handleLine E (.error e) = ([.result ⟨false, none, some e⟩], true) ∧
      runLoop E (.error e :: ls) =
        .result ⟨false, none, some e⟩ :: runLoop E ls) ∧
    (∀ (j : Json) (ls : List (Except String Json)), isObj j = false →
      handleLine E (.ok j) =
        ([.result ⟨false, none, some "AttributeError"⟩], true) ∧
      runLoop E (.ok j :: ls) =
        .result ⟨false, none, some "AttributeError"⟩ :: runLoop E ls) ∧
    (∀ (fields : List (String × Json)) (ls : List (Except String Json)),
      recognizedCmd (List.lookup "command" fields) = false →
      handleLine E (.ok (.jobj fields)) = ([], true) ∧
      runLoop E (.ok (.jobj fields) :: ls) = runLoop E ls) := by
  refine ⟨?_, ?_, ?_⟩
  · intro e ls
    exact ⟨rfl, rfl⟩
  · intro j ls hj
    have hh : handleLine E (.ok j) =
        ([.result ⟨false, none, some "AttributeError"⟩], true) := by
      cases j with
      | jobj fields => exact absurd hj (by simp [isObj])
      | jnull => rfl
      | jbool b => rfl
      | jnum n => rfl
      | jstr s => rfl
      | jarr xs => rfl
    refine ⟨hh, ?_⟩
    rw [runLoop_cons, hh]
    rfl
  · intro fields ls hcmd
    have hh : handleLine E (.ok (.jobj fields)) = ([], true) := by
      unfold handleLine
      cases hc : List.lookup "command" fields with
      | none => simp [hc]
      | some v =>
        cases v with
        | jstr c =>
          rw [hc] at hcmd
          unfold recognizedCmd at hcmd
          simp only [decide_eq_false_iff_not] at hcmd
          push_neg at hcmd
          simp [hc, hcmd.1, hcmd.2.1, hcmd.2.2.1, hcmd.2.2.2]
        | jnull => simp [hc]
        | jbool b => simp [hc]
        | jnum n => simp [hc]
        | jarr xs => simp [hc]
        | jobj fs => simp [hc]
    refine ⟨hh, ?_⟩
    rw [runLoop_cons, hh]
    rfl

/-- C1 amended, instantiated: a parse failure gets an error response; the
non-object line `null` gets an error response; the object line with
command "resize" gets no response; the loop continues in each case. -/
theorem C1_amended_witness :
    (handleLine extFail (.error "boom") =
      ([.result ⟨false, none, some "boom"⟩], true)) ∧
    (isObj Json.jnull = false ∧
     handleLine extFail (.ok Json.jnull) =
      ([.result ⟨false, none, some "AttributeError"⟩], true)) ∧
    (recognizedCmd (List.lookup "command" [("command", Json.jstr "resize")]) = false ∧
     handleLine extFail (.ok (.jobj [("command", Json.jstr "resize")])) = ([], true)) :=
  ⟨((C1_amended extFail).1 "boom" []).1,
   ⟨rfl, ((C1_amended extFail).2.1 Json.jnull [] rfl).1⟩,
   ⟨rfl, ((C1_amended extFail).2.2 [("command", Json.jstr "resize")] [] rfl).1⟩⟩

/-- C8: a process command without an `image` field runs the pipeline on
the empty string (`data.get("image", "")`): no protocol error, progress
10 and 20 are emitted, the `Image.open` of the empty byte string fails
inside the try block, exactly one `success:false` result with the
non-empty message follows, and the loop goes on reading. The two
hypotheses on `E` record the standard-library behaviour of
`base64.b64decode("")` and of `Image.open` on empty bytes. -/
theorem C8_missing_image (E : ExtOps) (fields : List (String × Json))
    (ls : List (Except String Json)) (em : String)
    (hcmd : List.lookup "command" fields = some (Json.jstr "process"))
    (himg : List.lookup "image" fields = none)
    (hb64 : E.b64decode "" = .ok [])
    (hopen : E.openRGB [] = .error em) (hem : em ≠ "") :
    handleLine E (.ok (.jobj fields)) =
      ([.progress 10, .progress 20, .result ⟨false, none, some em⟩], true) ∧
    runLoop E (.ok (.jobj fields) :: ls) =
      .progress 10 :: .progress 20 :: .result ⟨false, none, some em⟩ :: runLoop E ls ∧
    em ≠ "" := by
  have hpay : payloadOf "" = "" := rfl
  have hpv : process_image E "" = ([.progress 10, .progress 20], ⟨false, none, some em⟩) := by
    simp [process_image, hpay, hb64, hopen]
  have hh : handleLine E (.ok (.jobj fields)) =
      ([.progress 10, .progress 20, .result ⟨false, none, some em⟩], true) := by
    rw [handleLine_process E fields hcmd, himg]
    show ((process_image E "").1 ++ [.result (process_image E "").2], true) = _
    rw [hpv]
    rfl
  refine ⟨hh, ?_, hem⟩
  rw [runLoop_cons, hh]
  rfl

/-- C8 instantiated with collaborators that decode "" to empty bytes and
fail to open them, and a process line with no image field. -/
theorem C8_missing_image_witness :
    (List.lookup "command" [("command", Json.jstr "process")] =
        some (Json.jstr "process") ∧
     List.lookup "image" [("command", Json.jstr "process")] = none ∧
     extEmptyBytes.b64decode "" = .ok [] ∧
     extEmptyBytes.openRGB [] = .error "cannot identify image file" ∧
     "cannot identify image file" ≠ "") ∧
    handleLine extEmptyBytes (.ok (.jobj [("command", Json.jstr "process")])) =
      ([.progress 10, .progress 20,
        .result ⟨false, none, some "cannot identify image file"⟩], true) :=
  ⟨⟨rfl, rfl, rfl, rfl, by decide⟩,
   (C8_missing_image extEmptyBytes [("command", Json.jstr "process")] []
      "cannot identify image file" rfl rfl rfl rfl (by decide)).1⟩

/-! ## Claims about the Codec payload selection -/

lemma splitComma_cons (c : Char) (cs : List Char) :
    splitComma (c :: cs) = if c = ',' then [] :: splitComma cs
      else (c :: (splitComma cs).headI) :: (splitComma cs).tail := rfl

lemma getD_zero_headI (l : List (List Char)) : l.getD 0 [] = l.headI := by
  cases l <;> rfl

lemma getD_one_tail (l : List (List Char)) : l.getD 1 [] = l.tail.getD 0 [] := by
  cases l <;> rfl

lemma splitComma_headI (cs : List Char) :
    (splitComma cs).headI = cs.takeWhile (fun c => c ≠ ',') := by
  induction cs with
  | nil => rfl
  | cons c cs ih =>
    rw [splitComma_cons]
    by_cases hc : c = ','
    · subst hc
      rw [if_pos rfl]
      simp [List.takeWhile_cons]
    · rw [if_neg hc]
      simp [List.takeWhile_cons, hc, ih]

lemma splitComma_getD_one (cs : List Char) (hc : ',' ∈ cs) :
    (splitComma cs).getD 1 [] = secondField cs := by
  induction cs with
  | nil => cases hc
  | cons c cs ih =>
    rw [splitComma_cons]
    by_cases h : c = ','
    · subst h
      rw [if_pos rfl, List.getD_cons_succ, getD_zero_headI, splitComma_headI]
      unfold secondField afterFirstComma
      rw [List.dropWhile_cons]
      simp
    · rw [if_neg h, List.getD_cons_succ, ← getD_one_tail]
      have hc' : ',' ∈ cs := by
        rcases List.mem_cons.mp hc with he | hm
        · exact absurd he.symm h
        · exact hm
      rw [ih hc']
      unfold secondField afterFirstComma
      rw [List.dropWhile_cons, if_pos (by simp [h])]

/-- C9 counterexample: for `"x,AA,BB"` the decoded payload is the field
`"AA"` between the first and second commas, not the whole suffix
`"AA,BB"` after the first comma, refuting the claim at that input. -/
theorem C9_counterexample :
    ¬ (∀ cs : List Char,
        (',' ∈ cs → payloadChars cs = afterFirstComma cs) ∧
        (',' ∉ cs → payloadChars cs = cs)) := by
  intro hcl
  have h := (hcl "x,AA,BB".toList).1 (by decide)
  exact absurd h (by decide)

/-- C9 amended: with at least one comma present, the Codec base64-decodes
exactly the second comma-separated field — the text between the first
and the second comma (to the end when no second comma exists) — whatever
stands before the first comma; with no comma, it decodes the whole
string. -/
theorem C9_amended (cs : List Char) :
    (',' ∈ cs → payloadChars cs = secondField cs) ∧
    (',' ∉ cs → payloadChars cs = cs) := by
  constructor
  · intro hc
    unfold payloadChars
    rw [if_pos hc]
    exact splitComma_getD_one cs hc
  · intro hc
    unfold payloadChars
    rw [if_neg hc]

/-- C9 amended, instantiated at `"x,AA,BB"`. -/
theorem C9_amended_witness :
    (',' ∈ "x,AA,BB".toList) ∧
    payloadChars "x,AA,BB".toList = secondField "x,AA,BB".toList :=
  ⟨by decide, (C9_amended "x,AA,BB".toList).1 (by decide)⟩
